import Mathlib

/-!
# eslint-config-laravel: the exported configuration document

A shallow embedding of `packages/eslint-config-laravel/.eslintrc.js`.  The file
is a single statement, `module.exports = { ... }`, whose right-hand side is an
object literal built from booleans, one number, strings, arrays and nested
object literals.  The embedding has three layers:

* `JsVal`, the JavaScript values an object literal of that kind can denote,
  with `objectLiteral` for the evaluation of a literal's member list;
* `moduleExports`, the literal of the source file, member by member and in
  source order;
* the readers of the document that the specification speaks of, following its
  data model (`ruleEntries`, `settingSeverity`, `settingOptions`,
  `ruleNamespace`, ...);
* the steps that the specification names but the repository does not contain
  (serialisation and parsing, ignore-pattern matching, option validation),
  each marked as modelled.
-/

namespace EslintConfigLaravel

/-! ## JavaScript values -/

/-- The JavaScript values of the embedding.  `num` carries an integer: the only
number literal of the source is `2`.  `obj` carries the own properties of an
object in enumeration order.  `null` and `undefined` do not occur in the source
file; they are the result kinds of the engine-side readers and of
serialisation. -/
inductive JsVal where
  | null : JsVal
  | undefined : JsVal
  | bool (b : Bool) : JsVal
  | num (n : Int) : JsVal
  | str (s : String) : JsVal
  | arr (xs : List JsVal) : JsVal
  | obj (ms : List (String × JsVal)) : JsVal

mutual
/-- Decision procedure for equality of values. -/
def JsVal.decEq : (a b : JsVal) → Decidable (a = b)
  | .null, .null => isTrue rfl
  | .undefined, .undefined => isTrue rfl
  | .bool a, .bool b =>
      if h : a = b then isTrue (by rw [h]) else isFalse (by intro e; cases e; exact h rfl)
  | .num a, .num b =>
      if h : a = b then isTrue (by rw [h]) else isFalse (by intro e; cases e; exact h rfl)
  | .str a, .str b =>
      if h : a = b then isTrue (by rw [h]) else isFalse (by intro e; cases e; exact h rfl)
  | .arr a, .arr b =>
      match JsVal.decEqList a b with
      | isTrue h => isTrue (by rw [h])
      | isFalse h => isFalse (by intro e; cases e; exact h rfl)
  | .obj a, .obj b =>
      match JsVal.decEqMembers a b with
      | isTrue h => isTrue (by rw [h])
      | isFalse h => isFalse (by intro e; cases e; exact h rfl)
  | .null, .undefined | .null, .bool _ | .null, .num _ | .null, .str _
  | .null, .arr _ | .null, .obj _ => isFalse (by intro e; cases e)
  | .undefined, .null | .undefined, .bool _ | .undefined, .num _ | .undefined, .str _
  | .undefined, .arr _ | .undefined, .obj _ => isFalse (by intro e; cases e)
  | .bool _, .null | .bool _, .undefined | .bool _, .num _ | .bool _, .str _
  | .bool _, .arr _ | .bool _, .obj _ => isFalse (by intro e; cases e)
  | .num _, .null | .num _, .undefined | .num _, .bool _ | .num _, .str _
  | .num _, .arr _ | .num _, .obj _ => isFalse (by intro e; cases e)
  | .str _, .null | .str _, .undefined | .str _, .bool _ | .str _, .num _
  | .str _, .arr _ | .str _, .obj _ => isFalse (by intro e; cases e)
  | .arr _, .null | .arr _, .undefined | .arr _, .bool _ | .arr _, .num _
  | .arr _, .str _ | .arr _, .obj _ => isFalse (by intro e; cases e)
  | .obj _, .null | .obj _, .undefined | .obj _, .bool _ | .obj _, .num _
  | .obj _, .str _ | .obj _, .arr _ => isFalse (by intro e; cases e)
/-- Decision procedure for equality of element lists. -/
def JsVal.decEqList : (a b : List JsVal) → Decidable (a = b)
  | [], [] => isTrue rfl
  | [], _ :: _ => isFalse (by intro e; cases e)
  | _ :: _, [] => isFalse (by intro e; cases e)
  | x :: xs, y :: ys =>
      match JsVal.decEq x y, JsVal.decEqList xs ys with
      | isTrue h, isTrue h2 => isTrue (by rw [h, h2])
      | isFalse h, _ => isFalse (by intro e; cases e; exact h rfl)
      | _, isFalse h => isFalse (by intro e; cases e; exact h rfl)
/-- Decision procedure for equality of member lists. -/
def JsVal.decEqMembers : (a b : List (String × JsVal)) → Decidable (a = b)
  | [], [] => isTrue rfl
  | [], _ :: _ => isFalse (by intro e; cases e)
  | _ :: _, [] => isFalse (by intro e; cases e)
  | (k, x) :: xs, (l, y) :: ys =>
      if hk : k = l then
        match JsVal.decEq x y, JsVal.decEqMembers xs ys with
        | isTrue h, isTrue h2 => isTrue (by rw [hk, h, h2])
        | isFalse h, _ => isFalse (by intro e; cases e; exact h rfl)
        | _, isFalse h => isFalse (by intro e; cases e; exact h rfl)
      else isFalse (by intro e; cases e; exact hk rfl)
end

instance : DecidableEq JsVal := JsVal.decEq

/-- Defining one property on a property list: a key that is already present
keeps its position and takes the new value, a new key goes last. -/
def defineProp : List (String × JsVal) → String → JsVal → List (String × JsVal)
  | [], k, v => [(k, v)]
  | (k0, v0) :: rest, k, v =>
      if k0 = k then (k, v) :: rest else (k0, v0) :: defineProp rest k v

/-- Evaluation of an object literal `{ k1: v1, ..., kn: vn }`: the members are
defined from left to right, so a repeated key silently overwrites the earlier
member.  (Keys that are array indices would be enumerated first; the source has
none.) -/
def objectLiteral (members : List (String × JsVal)) : JsVal :=
  .obj (members.foldl (fun acc m => defineProp acc m.1 m.2) [])

/-- Reading a property from a property list. -/
def getProp : List (String × JsVal) → String → Option JsVal
  | [], _ => none
  | (k0, v0) :: rest, k => if k0 = k then some v0 else getProp rest k

/-- Property read `v[k]`, `none` when `v` is not an object or has no own
property `k`. -/
def JsVal.get : JsVal → String → Option JsVal
  | .obj ms, k => getProp ms k
  | _, _ => none

/-- The own properties of a value, in enumeration order (`Object.entries`);
empty when the value is not an object. -/
def JsVal.entries : JsVal → List (String × JsVal)
  | .obj ms => ms
  | _ => []

/-- The own property names of a value, in enumeration order (`Object.keys`). -/
def JsVal.keys (v : JsVal) : List String :=
  v.entries.map Prod.fst

/-! ## The source file -/

/-- The member list of the `rules` object literal, lines 19-55 of
`.eslintrc.js`, in source order. -/
def rulesLiteral : List (String × JsVal) :=
  [ ("align-assignments/align-assignments",
      .arr [.str "warn", objectLiteral [("requiresOnly", .bool false)]]),
    ("align-import/align-import", .arr [.str "warn"]),
    ("no-console", .arr [.str "warn"]),
    ("no-var", .arr [.str "error"]),
    ("prefer-const", .arr [.str "warn"]),
    ("prefer-arrow-callback", .arr [.str "warn"]),
    ("prefer-template", .arr [.str "warn"]),
    ("camelcase", .arr [.str "warn"]),
    ("key-spacing",
      .arr [.str "warn", objectLiteral [("mode", .str "minimum"), ("align", .str "value")]]),
    ("no-multiple-empty-lines", .arr [.str "warn", objectLiteral [("max", .num 2)]]),
    ("no-multi-spaces",
      .arr [.str "warn",
        objectLiteral
          [("exceptions",
            objectLiteral
              [("VariableDeclarator", .bool true), ("ImportDeclaration", .bool true)])]]),
    ("no-undef", .arr [.str "error"]),
    ("padded-blocks", .arr [.str "warn"]),
    ("no-unused-vars",
      .arr [.str "warn",
        objectLiteral [("argsIgnorePattern", .str "^_"), ("varsIgnorePattern", .str "^_")]]),
    ("eqeqeq", .arr [.str "warn", .str "smart"]) ]

/-- The member list of the exported object literal, lines 1-56 of
`.eslintrc.js`, in source order. -/
def exportsLiteral : List (String × JsVal) :=
  [ ("root", .bool true),
    ("env", objectLiteral [("browser", .bool true), ("es2021", .bool true), ("node", .bool true)]),
    ("extends", .arr [.str "eslint:recommended"]),
    ("parserOptions",
      objectLiteral [("ecmaVersion", .str "latest"), ("sourceType", .str "module")]),
    ("plugins", .arr [.str "align-assignments", .str "align-import"]),
    ("rules", objectLiteral rulesLiteral) ]

/-- The value of `module.exports` after the file has been evaluated. -/
def moduleExports : JsVal :=
  objectLiteral exportsLiteral

/-! ## Readers of the document -/

/-- The entries of the document's `rules` mapping, in enumeration order. -/
def ruleEntries : List (String × JsVal) :=
  match moduleExports.get "rules" with
  | some v => v.entries
  | none => []

/-- The string elements of the document's `plugins` list. -/
def pluginNames : List String :=
  match moduleExports.get "plugins" with
  | some (.arr xs) => xs.filterMap (fun x => match x with | .str s => some s | _ => none)
  | _ => []

/-- The setting of a rule in a configuration document. -/
def ruleSetting (doc : JsVal) (ruleId : String) : Option JsVal :=
  match doc.get "rules" with
  | some rules => rules.get ruleId
  | none => none

/-- One member of `parserOptions` of the exported document. -/
def parserOption (key : String) : Option JsVal :=
  match moduleExports.get "parserOptions" with
  | some opts => opts.get key
  | none => none

/-- The flags of the exported document's `env` field, with their values. -/
def envFlags : List (String × JsVal) :=
  match moduleExports.get "env" with
  | some env => env.entries
  | none => []

/-- The plugin part of a rule identifier: for `plugin/rule` the text before the
first `/`, and `none` for an identifier without `/` (a built-in rule). -/
def ruleNamespace (ruleId : String) : Option String :=
  if '/' ∈ ruleId.toList then some (String.mk (ruleId.toList.takeWhile (fun c => c ≠ '/')))
  else none

/-- The severity of a rule setting: the first element when the setting is an
array, the setting itself otherwise. -/
def settingSeverity : JsVal → Option JsVal
  | .arr [] => none
  | .arr (s :: _) => some s
  | v => some v

/-- The options of a rule setting: what follows the severity in an array
setting, nothing for a bare severity. -/
def settingOptions : JsVal → List JsVal
  | .arr (_ :: opts) => opts
  | _ => []

/-- The member `key` of the options record of a rule in a configuration
document: the record is the first option of the rule's setting. -/
def ruleOption (doc : JsVal) (ruleId key : String) : Option JsVal :=
  match ruleSetting doc ruleId with
  | some setting =>
      (match settingOptions setting with
       | o :: _ => o.get key
       | [] => none)
  | none => none

/-- The three severity levels, as the strings the document uses. -/
def severityLevels : List String :=
  ["off", "warn", "error"]

/-- Whether a value is a key/value record. -/
def JsVal.isRecord : JsVal → Bool
  | .obj _ => true
  | _ => false

/-- The shape of a setting in the spec's data model: a severity level alone
(bare, or as a one-element array), or a severity level followed by exactly one
options record. -/
def specSettingShape (setting : JsVal) : Bool :=
  match settingSeverity setting with
  | some (.str s) =>
      decide (s ∈ severityLevels) &&
        (match settingOptions setting with
         | [] => true
         | [o] => o.isRecord
         | _ => false)
  | _ => false

/-- The calendar year in the name of a language-version environment flag:
`es2021` gives 2021; `none` for a flag that is not `es` followed by digits. -/
def envYear (flag : String) : Option Nat :=
  match flag.toList with
  | 'e' :: 's' :: d :: ds =>
      if (d :: ds).all Char.isDigit then
        some ((d :: ds).foldl (fun acc c => 10 * acc + (c.toNat - '0'.toNat)) 0)
      else none
  | _ => none

/-- Whether an environment flag names the language version that a
`parserOptions.ecmaVersion` token denotes: the flag is `es` followed by the
token (`es` ++ `latest` for the string token `latest`), where a numeric token
may be a year (2021) or an edition number (12 for 2021). -/
def flagAgreesWithVersion (flag : String) : JsVal → Bool
  | .str tok => flag == "es" ++ tok
  | .num n => envYear flag == some n.toNat || envYear flag == some (n.toNat + 2009)
  | _ => false

/-- Whether a rule setting carries an ignore pattern: one of its options is a
record with a key that ends in `IgnorePattern` (`argsIgnorePattern`,
`varsIgnorePattern`, ...). -/
def carriesIgnorePattern (setting : JsVal) : Bool :=
  (settingOptions setting).any
    (fun o => o.keys.any (fun k => "IgnorePattern".toList.isSuffixOf k.toList))

mutual
/-- Whether a value is plain data all the way down: a boolean, a number, a
string, an array of plain data or a record of plain data. -/
def JsVal.isPlainData : JsVal → Bool
  | .null => false
  | .undefined => false
  | .bool _ => true
  | .num _ => true
  | .str _ => true
  | .arr xs => JsVal.allPlainData xs
  | .obj ms => JsVal.allMembersPlainData ms
/-- Whether every element of an array is plain data. -/
def JsVal.allPlainData : List JsVal → Bool
  | [] => true
  | x :: xs => x.isPlainData && JsVal.allPlainData xs
/-- Whether every property value of a record is plain data. -/
def JsVal.allMembersPlainData : List (String × JsVal) → Bool
  | [] => true
  | (_, x) :: ms => x.isPlainData && JsVal.allMembersPlainData ms
end

/-! ## Serialisation

`JSON.stringify` and `JSON.parse` belong to the ECMAScript runtime, not to the
repository.  The definitions of this section follow ECMA-262 (SerializeJSONProperty,
QuoteJSONString, the JSON grammar of ECMA-404) on the values of `JsVal`. -/

/-- Modelled from the spec: part of the runtime's JSON serialisation and
parsing, absent from src/.  The double quote character. -/
def dquote : Char := Char.ofNat 34

/-- Modelled from the spec: part of the runtime's JSON serialisation and
parsing, absent from src/.  The reverse solidus character. -/
def rsolidus : Char := Char.ofNat 92

/-- Modelled from the spec: part of the runtime's JSON serialisation and
parsing, absent from src/.  The lower-case hexadecimal digit of a number below 16. -/
def hexDigit (n : Nat) : Char :=
  if n < 10 then Char.ofNat (48 + n) else Char.ofNat (87 + n)

/-- Modelled from the spec: the string quoting of the serialisation step, which
is the runtime's (QuoteJSONString) and absent from src/.  The quote and the
reverse solidus get a reverse solidus in front, the control characters below
U+0020 their short or `u00XX` escape, every other character is copied. -/
def quoteChar (c : Char) : List Char :=
  if c = dquote then [rsolidus, dquote]
  else if c = rsolidus then [rsolidus, rsolidus]
  else if c.toNat = 8 then [rsolidus, 'b']
  else if c.toNat = 9 then [rsolidus, 't']
  else if c.toNat = 10 then [rsolidus, 'n']
  else if c.toNat = 12 then [rsolidus, 'f']
  else if c.toNat = 13 then [rsolidus, 'r']
  else if c.toNat < 32 then
    [rsolidus, 'u', '0', '0', hexDigit (c.toNat / 16), hexDigit (c.toNat % 16)]
  else [c]

/-- Modelled from the spec: QuoteJSONString of the runtime, absent from src/:
the quoted characters between two double quotes. -/
def quoteJSONString (s : String) : List Char :=
  dquote :: (s.toList.flatMap quoteChar ++ [dquote])

/-- Modelled from the spec: part of the runtime's JSON serialisation and
parsing, absent from src/.  The decimal text of an integer, as `Number.prototype.toString` gives it. -/
def intText (n : Int) : List Char :=
  match n with
  | .ofNat m => Nat.toDigits 10 m
  | .negSucc m => '-' :: Nat.toDigits 10 (m + 1)

/-- Modelled from the spec: part of the runtime's JSON serialisation and
parsing, absent from src/.  Texts joined by commas. -/
def commaJoin : List (List Char) → List Char
  | [] => []
  | [t] => t
  | t :: ts => t ++ ',' :: commaJoin ts

mutual
/-- Modelled from the spec: the serialisation step of the round trip, which is
the runtime's `JSON.stringify` (SerializeJSONProperty) and absent from src/.
`none` stands for the result `undefined`. -/
def jsonStringify : JsVal → Option (List Char)
  | .undefined => none
  | .null => some "null".toList
  | .bool true => some "true".toList
  | .bool false => some "false".toList
  | .num n => some (intText n)
  | .str s => some (quoteJSONString s)
  | .arr xs => some ('[' :: (commaJoin (stringifyElements xs) ++ [']']))
  | .obj ms => some ('{' :: (commaJoin (stringifyMembers ms) ++ ['}']))
/-- Modelled from the spec: part of the runtime's JSON serialisation and
parsing, absent from src/.  Serialisation of array elements: an element without a serialisation is
written as `null`. -/
def stringifyElements : List JsVal → List (List Char)
  | [] => []
  | x :: xs =>
      (match jsonStringify x with
       | some t => t
       | none => "null".toList) :: stringifyElements xs
/-- Modelled from the spec: part of the runtime's JSON serialisation and
parsing, absent from src/.  Serialisation of record members: a member whose value has no serialisation
is dropped. -/
def stringifyMembers : List (String × JsVal) → List (List Char)
  | [] => []
  | (k, x) :: ms =>
      match jsonStringify x with
      | some t => (quoteJSONString k ++ ':' :: t) :: stringifyMembers ms
      | none => stringifyMembers ms
end

/-- Modelled from the spec: part of the runtime's JSON serialisation and
parsing, absent from src/.  JSON white space. -/
def isJsonSpace (c : Char) : Bool :=
  c = ' ' || c.toNat = 9 || c.toNat = 10 || c.toNat = 13

/-- Modelled from the spec: part of the runtime's JSON serialisation and
parsing, absent from src/.  The input without its leading white space. -/
def skipSpace : List Char → List Char
  | [] => []
  | c :: cs => if isJsonSpace c then skipSpace cs else c :: cs

/-- Modelled from the spec: part of the runtime's JSON serialisation and
parsing, absent from src/.  The value of a hexadecimal digit. -/
def hexValue (c : Char) : Option Nat :=
  if '0' ≤ c ∧ c ≤ '9' then some (c.toNat - 48)
  else if 'a' ≤ c ∧ c ≤ 'f' then some (c.toNat - 87)
  else if 'A' ≤ c ∧ c ≤ 'F' then some (c.toNat - 55)
  else none

/-- Modelled from the spec: part of the runtime's JSON serialisation and
parsing, absent from src/.  The code point written by four hexadecimal digits; `none` when a digit is
malformed or the code is a surrogate half, which `Char` cannot hold. -/
def unicodeEscape (a b c d : Char) : Option Char :=
  match hexValue a, hexValue b, hexValue c, hexValue d with
  | some x, some y, some z, some w =>
      let code := 4096 * x + 256 * y + 16 * z + w
      if 55296 ≤ code ∧ code ≤ 57343 then none else some (Char.ofNat code)
  | _, _, _, _ => none

/-- Modelled from the spec: part of the runtime's JSON serialisation and
parsing, absent from src/.  The character of a one-letter escape. -/
def simpleEscape (c : Char) : Option Char :=
  if c = dquote then some dquote
  else if c = rsolidus then some rsolidus
  else if c = '/' then some '/'
  else if c = 'b' then some (Char.ofNat 8)
  else if c = 't' then some (Char.ofNat 9)
  else if c = 'n' then some (Char.ofNat 10)
  else if c = 'f' then some (Char.ofNat 12)
  else if c = 'r' then some (Char.ofNat 13)
  else none

/-- Modelled from the spec: the string scanner of the parsing step (runtime
`JSON.parse`, absent from src/).  It reads the characters after an opening
double quote up to the closing one, into `acc` (reversed), and returns the
string and the rest of the input. -/
def parseStringBody : Nat → List Char → List Char → Option (String × List Char)
  | 0, _, _ => none
  | _ + 1, [], _ => none
  | fuel + 1, c :: cs, acc =>
      if c = dquote then some (String.mk acc.reverse, cs)
      else if c = rsolidus then
        match cs with
        | 'u' :: h1 :: h2 :: h3 :: h4 :: rest =>
            (match unicodeEscape h1 h2 h3 h4 with
             | some u => parseStringBody fuel rest (u :: acc)
             | none => none)
        | e :: rest =>
            (match simpleEscape e with
             | some u => parseStringBody fuel rest (u :: acc)
             | none => none)
        | [] => none
      else if c.toNat < 32 then none
      else parseStringBody fuel cs (c :: acc)

/-- Modelled from the spec: part of the runtime's JSON serialisation and
parsing, absent from src/.  The natural number written by a list of decimal digits. -/
def digitsValue (ds : List Char) : Nat :=
  ds.foldl (fun acc c => 10 * acc + (c.toNat - 48)) 0

/-- Modelled from the spec: the number scanner of the parsing step (runtime
`JSON.parse`, absent from src/), for integers: an optional minus sign and
decimal digits without a superfluous leading zero.  A fraction or an exponent
is outside `JsVal` and gives `none`. -/
def parseNumber (cs : List Char) : Option (JsVal × List Char) :=
  let body := if cs.head? = some '-' then cs.tail else cs
  let ds := body.takeWhile Char.isDigit
  let rest := body.dropWhile Char.isDigit
  if ds = [] then none
  else if ds.head? = some '0' ∧ ds.length ≠ 1 then none
  else if rest.head? = some '.' ∨ rest.head? = some 'e' ∨ rest.head? = some 'E' then none
  else if cs.head? = some '-' then some (.num (-(digitsValue ds : Int)), rest)
  else some (.num (digitsValue ds : Int), rest)

mutual
/-- Modelled from the spec: the parsing step of the round trip, which is the
runtime's `JSON.parse` and absent from src/: one JSON value at the head of the
input, and the rest of the input.  `fuel` bounds the nesting and the number of
elements. -/
def parseValue : Nat → List Char → Option (JsVal × List Char)
  | 0, _ => none
  | fuel + 1, cs =>
      match skipSpace cs with
      | 'n' :: 'u' :: 'l' :: 'l' :: rest => some (.null, rest)
      | 't' :: 'r' :: 'u' :: 'e' :: rest => some (.bool true, rest)
      | 'f' :: 'a' :: 'l' :: 's' :: 'e' :: rest => some (.bool false, rest)
      | '[' :: rest =>
          (match skipSpace rest with
           | ']' :: rest2 => some (.arr [], rest2)
           | _ =>
              match parseElements fuel rest with
              | some (xs, rest2) => some (.arr xs, rest2)
              | none => none)
      | '{' :: rest =>
          (match skipSpace rest with
           | '}' :: rest2 => some (.obj [], rest2)
           | _ =>
              match parseMembers fuel rest [] with
              | some (ms, rest2) => some (.obj ms, rest2)
              | none => none)
      | c :: rest =>
          if c = dquote then
            match parseStringBody (rest.length + 1) rest [] with
            | some (s, rest2) => some (.str s, rest2)
            | none => none
          else parseNumber (c :: rest)
      | [] => none
/-- Modelled from the spec: part of the runtime's JSON serialisation and
parsing, absent from src/.  The elements of an array after its opening bracket, up to and including
the closing bracket. -/
def parseElements : Nat → List Char → Option (List JsVal × List Char)
  | 0, _ => none
  | fuel + 1, cs =>
      match parseValue fuel cs with
      | none => none
      | some (x, rest) =>
          match skipSpace rest with
          | ',' :: rest2 =>
              (match parseElements fuel rest2 with
               | some (xs, rest3) => some (x :: xs, rest3)
               | none => none)
          | ']' :: rest2 => some ([x], rest2)
          | _ => none
/-- Modelled from the spec: part of the runtime's JSON serialisation and
parsing, absent from src/.  The members of a record after its opening brace, up to and including the
closing brace.  Each member is defined on the properties read so far, so a
repeated key overwrites. -/
def parseMembers : Nat → List Char → List (String × JsVal) →
    Option (List (String × JsVal) × List Char)
  | 0, _, _ => none
  | fuel + 1, cs, acc =>
      match skipSpace cs with
      | [] => none
      | q :: rest =>
          if q = dquote then
            match parseStringBody (rest.length + 1) rest [] with
            | none => none
            | some (k, rest2) =>
                match skipSpace rest2 with
                | ':' :: rest3 =>
                    (match parseValue fuel rest3 with
                     | none => none
                     | some (x, rest4) =>
                         match skipSpace rest4 with
                         | ',' :: rest5 => parseMembers fuel rest5 (defineProp acc k x)
                         | '}' :: rest5 => some (defineProp acc k x, rest5)
                         | _ => none)
                | _ => none
          else none
end

/-- Modelled from the spec: `JSON.parse` of the runtime, absent from src/: the
text is one JSON value between optional white space.  The fuel handed to the
parser is twice the length of the text plus two. -/
def jsonParse (text : List Char) : Option JsVal :=
  match parseValue (2 * text.length + 2) text with
  | some (v, rest) => if skipSpace rest = [] then some v else none
  | none => none

/-- Modelled from the spec: part of the runtime's JSON serialisation and
parsing, absent from src/.  The round trip of a value through serialisation and parsing; `none` when
the value has no serialisation or the text does not parse. -/
def jsonRoundTrip (v : JsVal) : Option JsVal :=
  match jsonStringify v with
  | some text => jsonParse text
  | none => none

/-! ## Option readers of the engine

The regular-expression engine and the option-schema validator belong to the
linting engine and the runtime, not to the repository. -/

/-- Modelled from the spec: part of the runtime's `RegExp`, absent from src/.
The terms of the pattern language used by the document's ignore patterns:
the two line assertions, the wildcard and literal characters. -/
inductive RegexTerm where
  | assertStart : RegexTerm
  | assertEnd : RegexTerm
  | anyChar : RegexTerm
  | lit (c : Char) : RegexTerm
  deriving DecidableEq

/-- Modelled from the spec: part of the runtime's `RegExp`, absent from src/.
The pattern characters with a meaning beyond the terms of `RegexTerm`
(escapes, quantifiers, groups, classes, alternation). -/
def unsupportedSyntax : List Char :=
  [rsolidus, '*', '+', '?', '(', ')', '[', ']', Char.ofNat 123, Char.ofNat 125, '|']

/-- Modelled from the spec: the compilation of an ignore pattern by the
runtime's `RegExp` (absent from src/), for patterns made of `^`, `$`, `.` and
literal characters; `none` for a pattern with other syntax. -/
def compilePattern : List Char → Option (List RegexTerm)
  | [] => some []
  | c :: cs =>
      if c ∈ unsupportedSyntax then none
      else
        match compilePattern cs with
        | none => none
        | some ts =>
            some ((if c = '^' then RegexTerm.assertStart
                   else if c = '$' then RegexTerm.assertEnd
                   else if c = '.' then RegexTerm.anyChar
                   else RegexTerm.lit c) :: ts)

/-- Modelled from the spec: part of the runtime's `RegExp`, absent from src/.
Line terminators, which the wildcard does not match. -/
def isLineTerminator (c : Char) : Bool :=
  c.toNat = 10 || c.toNat = 13 || c.toNat = 8232 || c.toNat = 8233

/-- Modelled from the spec: part of the runtime's `RegExp`, absent from src/.
Whether the terms match at the current position: `atStart` tells whether
the position is the start of the input, the list is the input from the
position on. -/
def matchHere : List RegexTerm → Bool → List Char → Bool
  | [], _, _ => true
  | .assertStart :: ts, atStart, cs => atStart && matchHere ts atStart cs
  | .assertEnd :: ts, atStart, cs => cs.isEmpty && matchHere ts atStart cs
  | .anyChar :: _, _, [] => false
  | .anyChar :: ts, _, c :: cs => !isLineTerminator c && matchHere ts false cs
  | .lit _ :: _, _, [] => false
  | .lit a :: ts, _, c :: cs => a == c && matchHere ts false cs

/-- Modelled from the spec: part of the runtime's `RegExp`, absent from src/.
Whether the terms match at the current position or at a later one. -/
def searchFrom (ts : List RegexTerm) : Bool → List Char → Bool
  | atStart, [] => matchHere ts atStart []
  | atStart, c :: cs => matchHere ts atStart (c :: cs) || searchFrom ts false cs

/-- Modelled from the spec: `new RegExp(pattern, "u").test(name)`, the way the
linting engine applies an ignore pattern to an identifier (runtime and engine
code, absent from src/).  `none` when the pattern is outside the modelled
pattern language. -/
def regExpTest (pattern name : String) : Option Bool :=
  match compilePattern pattern.toList with
  | some ts => some (searchFrom ts true name.toList)
  | none => none

/-- Modelled from the spec: the schema validator for the options of the
blank-line limiting rule (engine code, absent from src/), which "requires `max`
to be a non-negative integer": the options are a record whose `max` is a
number, integral and not negative. -/
def validBlankLineOptions : JsVal → Bool
  | .obj ms =>
      (match getProp ms "max" with
       | some (.num n) => decide (0 ≤ n)
       | _ => false)
  | _ => false

/-! ## Theorems -/

/-- The `rules` literal repeats no key, so evaluation keeps all its members:
the entries of the document's `rules` mapping are the literal's members. -/
theorem ruleEntries_eq : ruleEntries = rulesLiteral := by
  decide

/-- The `plugins` list of the document. -/
theorem pluginNames_eq : pluginNames = ["align-assignments", "align-import"] := by
  decide

/-- The pattern `^_` compiles to the start assertion followed by the literal
underscore. -/
theorem compilePattern_underscore :
    compilePattern "^_".toList = some [RegexTerm.assertStart, RegexTerm.lit '_'] := by
  decide

/-- A pattern that begins with the start assertion matches at no position
after the start of the input. -/
theorem searchFrom_assertStart_later (ts : List RegexTerm) (cs : List Char) :
    searchFrom (RegexTerm.assertStart :: ts) false cs = false := by
  induction cs with
  | nil => simp [searchFrom, matchHere]
  | cons c cs ih => simp [searchFrom, matchHere, ih]

/-- Searching for the compiled `^_` from the start of an input succeeds exactly
when the input begins with an underscore. -/
theorem searchFrom_underscore (cs : List Char) :
    searchFrom [RegexTerm.assertStart, RegexTerm.lit '_'] true cs = true ↔
      ∃ rest, cs = '_' :: rest := by
  cases cs with
  | nil => simp [searchFrom, matchHere]
  | cons c cs =>
      simp only [searchFrom, matchHere, searchFrom_assertStart_later, Bool.true_and,
        Bool.and_true, Bool.or_false, beq_iff_eq, List.cons.injEq, exists_eq_right']
      exact eq_comm

/-- Claim C1: every key of the document's `rules` mapping that has a namespace
part (the text before its `/`) names a plugin of the document's `plugins`
list. -/
theorem C1_namespaced_rule_has_plugin (ruleId ns : String)
    (hrule : ruleId ∈ ruleEntries.map Prod.fst) (hns : ruleNamespace ruleId = some ns) :
    ns ∈ pluginNames := by
  have key : ∀ k ∈ ruleEntries.map Prod.fst,
      ruleNamespace k = none ∨ ∃ p ∈ pluginNames, ruleNamespace k = some p := by
    decide
  rcases key ruleId hrule with h | ⟨p, hp, h⟩
  · rw [h] at hns
    cases hns
  · rw [h] at hns
    cases hns
    exact hp

/-- Claim C1 at the rule `align-import/align-import`, whose namespace part is
the plugin `align-import`. -/
theorem C1_namespaced_rule_has_plugin_witness :
    "align-import/align-import" ∈ ruleEntries.map Prod.fst ∧
      ruleNamespace "align-import/align-import" = some "align-import" ∧
      "align-import" ∈ pluginNames :=
  ⟨by decide, by decide,
    C1_namespaced_rule_has_plugin "align-import/align-import" "align-import"
      (by decide) (by decide)⟩

/-- Claim C2: for every entry of the document's `rules` mapping, the severity
of its setting (the first element of the setting array) is one of the three
strings `off`, `warn`, `error`. -/
theorem C2_severity_is_a_level (ruleId : String) (setting : JsVal)
    (hrule : (ruleId, setting) ∈ ruleEntries) :
    ∃ s, settingSeverity setting = some (.str s) ∧ (s = "off" ∨ s = "warn" ∨ s = "error") := by
  have key : ∀ e ∈ ruleEntries, ∃ s ∈ severityLevels, settingSeverity e.2 = some (.str s) := by
    decide
  obtain ⟨s, hs, h⟩ := key (ruleId, setting) hrule
  refine ⟨s, h, ?_⟩
  simpa [severityLevels] using hs

/-- Claim C2 at the rule `no-var`, whose severity is `error`. -/
theorem C2_severity_is_a_level_witness :
    ("no-var", JsVal.arr [.str "error"]) ∈ ruleEntries ∧
      ∃ s, settingSeverity (JsVal.arr [.str "error"]) = some (.str s) ∧
        (s = "off" ∨ s = "warn" ∨ s = "error") :=
  ⟨by decide, C2_severity_is_a_level "no-var" (JsVal.arr [.str "error"]) (by decide)⟩

/-- Claim C3 as stated fails: the setting of `eqeqeq` is a severity level
followed by the bare string `smart`, which is not an options record, and the
mapping has 15 entries, not 17. -/
theorem C3_eqeqeq_option_is_a_string :
    ("eqeqeq", JsVal.arr [.str "warn", .str "smart"]) ∈ ruleEntries ∧
      specSettingShape (JsVal.arr [.str "warn", .str "smart"]) = false ∧
      ¬ (∀ e ∈ ruleEntries, specSettingShape e.2 = true) ∧
      ruleEntries.length ≠ 17 := by
  decide

/-- Claim C3, amended: the mapping has 15 entries; the setting of every entry
other than `eqeqeq` is a severity level alone or a severity level followed by
one options record, and the setting of `eqeqeq` is the severity level `warn`
followed by the string `smart`. -/
theorem C3_setting_shape (ruleId : String) (setting : JsVal)
    (hrule : (ruleId, setting) ∈ ruleEntries) :
    ruleEntries.length = 15 ∧
      (ruleId ≠ "eqeqeq" → specSettingShape setting = true) ∧
      (ruleId = "eqeqeq" → setting = JsVal.arr [.str "warn", .str "smart"]) := by
  have key : ∀ e ∈ ruleEntries,
      (e.1 ≠ "eqeqeq" → specSettingShape e.2 = true) ∧
        (e.1 = "eqeqeq" → e.2 = JsVal.arr [.str "warn", .str "smart"]) := by
    decide
  exact ⟨by decide, key (ruleId, setting) hrule⟩

/-- Claim C3, amended, at the rule `key-spacing`, whose setting is a severity
level followed by an options record. -/
theorem C3_setting_shape_witness :
    ("key-spacing",
        JsVal.arr [.str "warn", .obj [("mode", .str "minimum"), ("align", .str "value")]])
        ∈ ruleEntries ∧
      specSettingShape
        (JsVal.arr [.str "warn", .obj [("mode", .str "minimum"), ("align", .str "value")]])
        = true :=
  ⟨by decide,
    (C3_setting_shape "key-spacing"
      (JsVal.arr [.str "warn", .obj [("mode", .str "minimum"), ("align", .str "value")]])
      (by decide)).2.1 (by decide)⟩

/-- Serialisation does change values that are not plain data: an `undefined`
array element comes back as `null` and an `undefined` member is dropped. -/
theorem jsonRoundTrip_undefined :
    jsonRoundTrip (.arr [.undefined, .obj [("a", .undefined), ("b", .num 1)]]) =
      some (.arr [.null, .obj [("b", .num 1)]]) := by
  decide

/-- Claim C4: the exported document is plain data all the way down, and
serialising it to JSON and parsing the text gives back the document itself; in
the value that comes back, the `no-unused-vars` options `argsIgnorePattern` and
`varsIgnorePattern` are the two-character string `^_`. -/
theorem C4_json_round_trip :
    moduleExports.isPlainData = true ∧
      jsonRoundTrip moduleExports = some moduleExports ∧
      (jsonRoundTrip moduleExports).bind
          (fun doc => ruleOption doc "no-unused-vars" "argsIgnorePattern") = some (.str "^_") ∧
      (jsonRoundTrip moduleExports).bind
          (fun doc => ruleOption doc "no-unused-vars" "varsIgnorePattern") = some (.str "^_") ∧
      "^_".toList = ['^', '_'] := by
  decide!

/-- Claim C5: the only entry of the `rules` mapping that carries an ignore
pattern is `no-unused-vars`; the keys of its options record are
`argsIgnorePattern` and `varsIgnorePattern`, both with the value `^_`; and the
regular expression `^_` matches a string exactly when the string begins with
the character `_`. -/
theorem C5_underscore_exemption :
    (ruleEntries.filter (fun e => carriesIgnorePattern e.2)).map Prod.fst = ["no-unused-vars"] ∧
      (ruleSetting moduleExports "no-unused-vars").map settingOptions =
        some [.obj [("argsIgnorePattern", .str "^_"), ("varsIgnorePattern", .str "^_")]] ∧
      ruleOption moduleExports "no-unused-vars" "argsIgnorePattern" = some (.str "^_") ∧
      ruleOption moduleExports "no-unused-vars" "varsIgnorePattern" = some (.str "^_") ∧
      ∀ s : String, regExpTest "^_" s = some true ↔ ∃ rest, s.toList = '_' :: rest := by
  refine ⟨by decide, by decide, by decide, by decide, ?_⟩
  intro s
  simp only [regExpTest, compilePattern_underscore, Option.some.injEq]
  exact searchFrom_underscore s.toList

/-- Claim C6: the `no-multiple-empty-lines` entry of the document is the pair
of `warn` and the record whose only member is `max` with the integer 2; a
validator that requires `max` to be a non-negative integer accepts that record
and rejects the records with `max` equal to -1 and to the string `2`. -/
theorem C6_blank_line_options :
    ruleSetting moduleExports "no-multiple-empty-lines" =
        some (.arr [.str "warn", .obj [("max", .num 2)]]) ∧
      ((ruleSetting moduleExports "no-multiple-empty-lines").map settingOptions).map
          (fun opts => opts.map validBlankLineOptions) = some [true] ∧
      validBlankLineOptions (objectLiteral [("max", .num 2)]) = true ∧
      validBlankLineOptions (objectLiteral [("max", .num (-1))]) = false ∧
      validBlankLineOptions (objectLiteral [("max", .str "2")]) = false := by
  decide

/-- Claim C7: the exported document has a `root` field and its value is the
boolean `true`, not a truthy string or number. -/
theorem C7_root_is_true :
    "root" ∈ moduleExports.keys ∧ moduleExports.get "root" = some (.bool true) := by
  decide

/-- Claim C8: `parserOptions.sourceType` of the exported document is the
string `module`, one of the two values `script` and `module`, and
`parserOptions.ecmaVersion` is present, with the version token `latest`. -/
theorem C8_parser_options :
    parserOption "sourceType" = some (.str "module") ∧
      "module" ∈ ["script", "module"] ∧
      parserOption "ecmaVersion" = some (.str "latest") := by
  decide

/-- Claim C9 as stated fails: the language-version flag of `env` is `es2021`,
the fixed 2021 edition, while `parserOptions.ecmaVersion` is the string
`latest`; no flag of `env` names the version that `ecmaVersion` denotes. -/
theorem C9_env_flag_is_not_latest :
    envFlags.map Prod.fst = ["browser", "es2021", "node"] ∧
      envYear "es2021" = some 2021 ∧
      parserOption "ecmaVersion" = some (.str "latest") ∧
      ¬ (∃ flag ∈ envFlags.map Prod.fst, ∃ tok,
          parserOption "ecmaVersion" = some tok ∧ flagAgreesWithVersion flag tok = true) := by
  refine ⟨by decide, by decide, by decide, ?_⟩
  rintro ⟨flag, hflag, tok, htok, hagree⟩
  have hv : parserOption "ecmaVersion" = some (.str "latest") := by decide
  rw [hv] at htok
  cases htok
  have key : ∀ f ∈ envFlags.map Prod.fst, flagAgreesWithVersion f (.str "latest") = false := by
    decide
  rw [key flag hflag] at hagree
  cases hagree

/-- Claim C9, amended: the `env` field of the exported document has exactly
the three flags `browser`, `es2021` and `node`, each set to `true`; `es2021`
is the only language-version flag and names the year 2021, and
`parserOptions.ecmaVersion` is the string `latest`. -/
theorem C9_env_flags :
    envFlags = [("browser", .bool true), ("es2021", .bool true), ("node", .bool true)] ∧
      (envFlags.map Prod.fst).filterMap envYear = [2021] ∧
      parserOption "ecmaVersion" = some (.str "latest") := by
  decide

/-- Claim C10 as stated fails: the `rules` literal has 15 members and the
`rules` mapping 15 keys, not 17. -/
theorem C10_rule_count_is_not_17 :
    rulesLiteral.length = 15 ∧ (ruleEntries.map Prod.fst).length = 15 ∧
      ¬ ((ruleEntries.map Prod.fst).length = 17) := by
  decide

/-- Claim C10, amended: the `rules` literal has 15 members with pairwise
distinct keys, all of which are entries of the `rules` mapping; no entry has
the severity `off`; the entries with the severity `error` are exactly `no-var`
and `no-undef`, and every other entry has the severity `warn`. -/
theorem C10_rule_keys_and_severities :
    rulesLiteral.length = 15 ∧
      (rulesLiteral.map Prod.fst).Nodup ∧
      ruleEntries = rulesLiteral ∧
      (∀ e ∈ ruleEntries, settingSeverity e.2 ≠ some (.str "off")) ∧
      (∀ e ∈ ruleEntries,
        settingSeverity e.2 = some (.str "error") ↔ (e.1 = "no-var" ∨ e.1 = "no-undef")) ∧
      (∀ e ∈ ruleEntries,
        e.1 ≠ "no-var" → e.1 ≠ "no-undef" → settingSeverity e.2 = some (.str "warn")) := by
  decide

/-- Claim C10, amended, at the rule `camelcase`, which is neither `no-var` nor
`no-undef` and has the severity `warn`. -/
theorem C10_rule_keys_and_severities_witness :
    ("camelcase", JsVal.arr [.str "warn"]) ∈ ruleEntries ∧
      settingSeverity (JsVal.arr [.str "warn"]) = some (.str "warn") :=
  ⟨by decide,
    C10_rule_keys_and_severities.2.2.2.2.2 ("camelcase", JsVal.arr [.str "warn"])
      (by decide) (by decide) (by decide)⟩

end EslintConfigLaravel
